import Mathlib

/-!
Verification model of the WPT Parameter Search 2 engine (main.go).

The Go program performs a bounded Monte Carlo parameter sweep: each trial
samples every parameter (linearly or log-uniformly) from one shared
pseudo-random stream, evaluates a user-supplied function `f`, classifies the
output as OK (finite and inside the acceptance interval `yRange`) or NG,
updates hit counters, and retains at most a configured number of samples of
each class.  The loop stops when the iteration bound is reached (Completed)
or a Ctrl-C signal is observed at a trial boundary (Cancelled); a sampler
domain error aborts through a distinct fatal path.

Modelling conventions:
* `float64` is idealised as `F64 α`: either a finite value of a linear
  ordered field `α` (arithmetic is exact, rounding is not modelled), or one
  of the IEEE non-finite values NaN / +Inf / -Inf.  Values produced by the
  sampler are finite, so sampled assignments carry plain `α`; the evaluator
  may return any `F64 α`.
* `math.Exp` and `math.Log` are passed in as explicit functions
  `fexp flog : α → α`, so the one sampler definition serves both the
  executable rational instance (used by concrete runs) and the real-number
  instance `Real.exp` / `Real.log` (used to reason about log sampling).
* The `rand.Rand` stream seeded in `rand.New(rand.NewSource(seed))` is
  modelled as the sequence `us : ℕ → α` of successive `rng.Float64()`
  outputs together with a cursor `pos`; a fixed seed determines a fixed
  stream.  `sampleOne` receives the next stream element as `u`.
* `int64` counters are idealised as `ℤ` (no counter can overflow within a
  bounded run, so wrap-around is not modelled).
* The Ctrl-C signal is modelled as `cancel : ℕ → Bool`, giving for each
  trial boundary (indexed by the number of completed trials) whether the
  cancellation signal has been observed by the `select` poll.
* Console printing and xlsx/tsv export are I/O side effects outside the
  core and are not modelled; the fatal sampler-error path carries its error
  message in the result.
-/

namespace WptSearch

/-- Sampling method of one parameter (`type Scale int`; `Linear` / `Log`). -/
inductive Scale where
  | Linear
  | Log
deriving DecidableEq

/-- Idealised IEEE float64: a finite value of the ordered field `α`, or one
of the non-finite values NaN, +Inf, -Inf. -/
inductive F64 (α : Type) where
  | finite (x : α)
  | nan
  | posInf
  | negInf
deriving DecidableEq

/-- `math.IsNaN`. -/
def isNaN {α : Type} : F64 α → Bool
  | F64.nan => true
  | _ => false

/-- `math.IsInf(y, 0)`: `y` is +Inf or -Inf. -/
def isInf {α : Type} : F64 α → Bool
  | F64.posInf => true
  | F64.negInf => true
  | _ => false

/-- IEEE `<=` on float64: any comparison involving NaN is false, -Inf is
below and +Inf above every non-NaN value, finite values compare in `α`. -/
def fle {α : Type} [LinearOrder α] : F64 α → F64 α → Bool
  | F64.nan, _ => false
  | _, F64.nan => false
  | F64.negInf, _ => true
  | _, F64.posInf => true
  | F64.posInf, _ => false
  | _, F64.negInf => false
  | F64.finite x, F64.finite y => decide (x ≤ y)

/-- `type ParamSpec struct` (main.go lines 32-39): search range, sampling
method and display metadata of one variable. -/
structure ParamSpec (α : Type) where
  Key : String
  Label : String
  Min : α
  Max : α
  Scale : WptSearch.Scale
  DisplayScale : α

/-- `type Sample struct` (main.go lines 41-45): one retained trial outcome.
`Values` is the assignment built in configured parameter order (the Go map
is keyed by the pairwise-distinct `Key`s, so insertion order carries no
information beyond the key-value pairs themselves). -/
structure Sample (α : Type) where
  Values : List (String × α)
  Y : F64 α
  OK : Bool
deriving DecidableEq

/-- `type Range struct` (main.go lines 47-50): the acceptance interval for
the evaluator output. -/
structure Range (α : Type) where
  Min : F64 α
  Max : F64 α
deriving DecidableEq

/-- `func inRange(x float64, r Range) bool` (main.go lines 52-54):
`r.Min <= x && x <= r.Max` with IEEE comparisons. -/
def inRange {α : Type} [LinearOrder α] (x : F64 α) (r : Range α) : Bool :=
  fle r.Min x && fle x r.Max

/-- `func sampleOne(rng *rand.Rand, p ParamSpec) (float64, error)`
(main.go lines 56-75).  `u` is the next `rng.Float64()` stream value;
`fexp` and `flog` stand for `math.Exp` and `math.Log`. -/
def sampleOne {α : Type} [LinearOrderedField α] (fexp flog : α → α) (u : α)
    (p : ParamSpec α) : Except String α :=
  if p.Max < p.Min then
    Except.error ("param " ++ p.Key ++ ": Max < Min")
  else
    match p.Scale with
    | Scale.Linear =>
        Except.ok (p.Min + u * (p.Max - p.Min))
    | Scale.Log =>
        if p.Min ≤ 0 ∨ p.Max ≤ 0 then
          Except.error ("param " ++ p.Key ++ ": log sampling requires Min>0 and Max>0")
        else
          Except.ok (fexp (flog p.Min + u * (flog p.Max - flog p.Min)))

/-- The configuration surface read by `main` from `cfg := DefaultConfig()`
(main.go lines 78-88): parameter list, acceptance interval, iteration
bound, retention capacities and the evaluator.  `PrintEvery`, `Seed` and
the output file names only drive I/O (the seed enters the model as the
stream `us`). -/
structure Config (α : Type) where
  Params : List (ParamSpec α)
  YRange : Range α
  MaxIters : ℤ
  MaxOKSave : ℤ
  MaxNGSave : ℤ
  F : List (String × α) → F64 α

/-- The mutable run state of `main` (main.go lines 117-122): the two
bounded retention lists and the three counters. -/
structure LoopState (α : Type) where
  iters : ℤ
  okHits : ℤ
  ngHits : ℤ
  okList : List (Sample α)
  ngList : List (Sample α)
deriving DecidableEq

/-- Initial run state: zero counters, empty lists (main.go lines 117-122). -/
def initState {α : Type} : LoopState α :=
  { iters := 0, okHits := 0, ngHits := 0, okList := [], ngList := [] }

/-- `ok := !math.IsNaN(y) && !math.IsInf(y, 0) && inRange(y, yRange)`
(main.go line 162): the OK/NG classification of one evaluator output. -/
def classifyOk {α : Type} [LinearOrder α] (y : F64 α) (r : Range α) : Bool :=
  !(isNaN y) && !(isInf y) && inRange y r

/-- The state update of one completed trial (main.go lines 164-182):
increment the matching hit counter, append the sample to the matching list
only when its capacity is positive and not yet reached, increment `iters`. -/
def recordTrial {α : Type} (cfg : Config α) (s : LoopState α)
    (vals : List (String × α)) (y : F64 α) (ok : Bool) : LoopState α :=
  let okHits' := if ok then s.okHits + 1 else s.okHits
  let ngHits' := if ok then s.ngHits else s.ngHits + 1
  let sm : Sample α := { Values := vals, Y := y, OK := ok }
  let okList' :=
    if ok then
      if 0 < cfg.MaxOKSave ∧ (s.okList.length : ℤ) < cfg.MaxOKSave then
        s.okList ++ [sm]
      else s.okList
    else s.okList
  let ngList' :=
    if ok then s.ngList
    else
      if 0 < cfg.MaxNGSave ∧ (s.ngList.length : ℤ) < cfg.MaxNGSave then
        s.ngList ++ [sm]
      else s.ngList
  { iters := s.iters + 1, okHits := okHits', ngHits := ngHits',
    okList := okList', ngList := ngList' }

/-- The per-trial sampling loop (main.go lines 151-159): sample every
parameter in configured order from the shared stream, building the
assignment; the first sampler error aborts.  Returns the assignment and
the advanced stream cursor. -/
def sampleAll {α : Type} [LinearOrderedField α] (fexp flog : α → α)
    (us : ℕ → α) : ℕ → List (ParamSpec α) →
    Except String (List (String × α) × ℕ)
  | pos, [] => Except.ok ([], pos)
  | pos, p :: ps =>
    match sampleOne fexp flog (us pos) p with
    | Except.error e => Except.error e
    | Except.ok v =>
      match sampleAll fexp flog us (pos + 1) ps with
      | Except.error e => Except.error e
      | Except.ok (rest, pos') => Except.ok ((p.Key, v) :: rest, pos')

/-- How the run ended: iteration bound reached (`break`), cancellation
observed (`goto DONE`), or sampler error (`return` after printing the
error).  The first two expose the accumulated state; the fatal path skips
the summary and export entirely and carries only the error message. -/
inductive RunResult (α : Type) where
  | completed (s : LoopState α)
  | cancelled (s : LoopState α)
  | fatal (e : String)
deriving DecidableEq

/-- The trial loop (main.go lines 140-186), with an explicit fuel that
bounds the number of remaining trials.  Each iteration first checks
`i >= maxIters` (Completed), then polls the cancellation signal
(Cancelled), then samples, evaluates, classifies and records one trial.
`runLoop` below instantiates `fuel` with the exact remaining trial count
`(MaxIters - iters).toNat`, under which the fuel-exhausted fallback
coincides with the `i >= maxIters` check and is never reached. -/
def runLoopF {α : Type} [LinearOrderedField α] (fexp flog : α → α)
    (cfg : Config α) (cancel : ℕ → Bool) (us : ℕ → α) :
    ℕ → ℕ → LoopState α → RunResult α
  | 0, _, s =>
      if cfg.MaxIters ≤ s.iters then RunResult.completed s
      else if cancel s.iters.toNat then RunResult.cancelled s
      else RunResult.completed s
  | fuel + 1, pos, s =>
      if cfg.MaxIters ≤ s.iters then RunResult.completed s
      else if cancel s.iters.toNat then RunResult.cancelled s
      else
        match sampleAll fexp flog us pos cfg.Params with
        | Except.error e => RunResult.fatal e
        | Except.ok (vals, pos') =>
            runLoopF fexp flog cfg cancel us fuel pos'
              (recordTrial cfg s vals (cfg.F vals)
                (classifyOk (cfg.F vals) cfg.YRange))

/-- The trial loop from an arbitrary state: `runLoopF` with the exact
remaining trial count as fuel. -/
def runLoop {α : Type} [LinearOrderedField α] (fexp flog : α → α)
    (cfg : Config α) (cancel : ℕ → Bool) (us : ℕ → α) (pos : ℕ)
    (s : LoopState α) : RunResult α :=
  runLoopF fexp flog cfg cancel us (cfg.MaxIters - s.iters).toNat pos s

/-- The duplicate/empty key scan run before the loop starts (main.go lines
90-102), with its `seen` set made explicit: returns the panic message of
the first offending parameter, or `none`. -/
def findKeyError {α : Type} : List String → List (ParamSpec α) → Option String
  | _, [] => none
  | seen, p :: ps =>
    if p.Key = "" then some "param key is empty"
    else if p.Key ∈ seen then some ("duplicate param key: " ++ p.Key)
    else findKeyError (p.Key :: seen) ps

/-- The keys of the active parameter set, in configured order. -/
def keysOf {α : Type} (params : List (ParamSpec α)) : List String :=
  params.map ParamSpec.Key

/-- Outcome of `main` (main.go lines 77-224): either the pre-loop key
check panics (no trial executed, no result set produced), or the loop runs
to one of its three exits. -/
inductive MainResult (α : Type) where
  | panicked (msg : String)
  | finished (r : RunResult α)
deriving DecidableEq

/-- `func main()`: key check, then the trial loop from the initial state
with the stream cursor at 0. -/
def mainRun {α : Type} [LinearOrderedField α] (fexp flog : α → α)
    (cfg : Config α) (cancel : ℕ → Bool) (us : ℕ → α) : MainResult α :=
  match findKeyError [] cfg.Params with
  | some e => MainResult.panicked e
  | none => MainResult.finished (runLoop fexp flog cfg cancel us 0 initState)

/-- Counter/capacity invariant of the run state (spec §8): `iters` is the
sum of the hit counters, and each retention list is bounded by both its
hit counter and its configured capacity. -/
def CounterInv {α : Type} (cfg : Config α) (s : LoopState α) : Prop :=
  s.iters = s.okHits + s.ngHits ∧
  (s.okList.length : ℤ) ≤ min s.okHits cfg.MaxOKSave ∧
  (s.ngList.length : ℤ) ≤ min s.ngHits cfg.MaxNGSave

/-- Purity invariant of the retention lists: every retained OK sample was
classified OK by the classifier on this run's acceptance interval, and
every retained NG sample was classified NG. -/
def ListsInv {α : Type} [LinearOrder α] (cfg : Config α) (s : LoopState α) : Prop :=
  (∀ sm ∈ s.okList, sm.OK = true ∧ classifyOk sm.Y cfg.YRange = true) ∧
  (∀ sm ∈ s.ngList, sm.OK = false ∧ classifyOk sm.Y cfg.YRange = false)

/-- Concrete linear parameter used by witness runs: `x` sweeping `[0, 1]`. -/
def pLinW : ParamSpec ℚ :=
  { Key := "x", Label := "x", Min := 0, Max := 1,
    Scale := Scale.Linear, DisplayScale := 1 }

/-- Concrete degenerate log parameter (`Min = Max = 1 > 0`). -/
def pLogW : ParamSpec ℚ :=
  { Key := "r", Label := "r", Min := 1, Max := 1,
    Scale := Scale.Log, DisplayScale := 1 }

/-- Concrete log parameter with an invalid non-positive lower bound. -/
def pLogBad : ParamSpec ℚ :=
  { Key := "b", Label := "b", Min := 0, Max := 1,
    Scale := Scale.Log, DisplayScale := 1 }

/-- Concrete witness configuration: one linear parameter, the evaluator
returns the sampled value, acceptance interval `[0, 1]`, two trials,
capacity one per list. -/
def cfgW : Config ℚ :=
  { Params := [pLinW],
    YRange := { Min := F64.finite 0, Max := F64.finite 1 },
    MaxIters := 2, MaxOKSave := 1, MaxNGSave := 1,
    F := fun vals =>
      match vals with
      | [] => F64.nan
      | (_, v) :: _ => F64.finite v }

/-- Witness configuration with a duplicated parameter key. -/
def cfgDupW : Config ℚ :=
  { Params := [pLinW, pLinW],
    YRange := { Min := F64.finite 0, Max := F64.finite 1 },
    MaxIters := 2, MaxOKSave := 1, MaxNGSave := 1,
    F := fun _ => F64.nan }

/-- Witness configuration whose single parameter has an invalid log
domain, so the very first trial hits the fatal sampler-error path. -/
def cfgBadW : Config ℚ :=
  { Params := [pLogBad],
    YRange := { Min := F64.finite 0, Max := F64.finite 1 },
    MaxIters := 2, MaxOKSave := 1, MaxNGSave := 1,
    F := fun _ => F64.nan }

/-- The all-zero random stream used by witness runs. -/
def usZero : ℕ → ℚ := fun _ => 0

/-- The never-cancelled schedule used by witness runs. -/
def noCancel : ℕ → Bool := fun _ => false

/-- The OK sample produced by each trial of the witness run. -/
def smOkW : Sample ℚ :=
  { Values := [("x", 0)], Y := F64.finite 0, OK := true }

/-- A concrete NG sample used by witness states. -/
def smNgW : Sample ℚ :=
  { Values := [("x", 3)], Y := F64.finite 3, OK := false }

/-- The final state of the witness run: two OK trials, one retained. -/
def sFinW : LoopState ℚ :=
  { iters := 2, okHits := 2, ngHits := 0, okList := [smOkW], ngList := [] }

/-- A mid-run witness state whose OK list is at its capacity of one. -/
def sOneOkW : LoopState ℚ :=
  { iters := 1, okHits := 1, ngHits := 0, okList := [smOkW], ngList := [] }

/-- A mid-run witness state whose NG list is at its capacity of one. -/
def sOneNgW : LoopState ℚ :=
  { iters := 1, okHits := 0, ngHits := 1, okList := [], ngList := [smNgW] }


/-- The state update of one trial always increments the total trial
counter by exactly one. -/
theorem recordTrial_iters {α : Type} (cfg : Config α) (s : LoopState α)
    (vals : List (String × α)) (y : F64 α) (ok : Bool) :
    (recordTrial cfg s vals y ok).iters = s.iters + 1 := rfl

/-- One-step unfolding of the trial loop: with the exact remaining trial
count as fuel, `runLoop` satisfies the literal loop body of main.go lines
140-186 (bound check, cancellation poll, sample, evaluate, classify,
record, repeat). -/
theorem runLoop_eq {α : Type} [LinearOrderedField α] (fexp flog : α → α)
    (cfg : Config α) (cancel : ℕ → Bool) (us : ℕ → α) (pos : ℕ)
    (s : LoopState α) :
    runLoop fexp flog cfg cancel us pos s =
      if cfg.MaxIters ≤ s.iters then RunResult.completed s
      else if cancel s.iters.toNat then RunResult.cancelled s
      else
        match sampleAll fexp flog us pos cfg.Params with
        | Except.error e => RunResult.fatal e
        | Except.ok (vals, pos') =>
            runLoop fexp flog cfg cancel us pos'
              (recordTrial cfg s vals (cfg.F vals)
                (classifyOk (cfg.F vals) cfg.YRange)) := by
  by_cases h1 : cfg.MaxIters ≤ s.iters
  · have hf : (cfg.MaxIters - s.iters).toNat = 0 := by omega
    rw [runLoop, hf, runLoopF, if_pos h1, if_pos h1]
  · have hf : (cfg.MaxIters - s.iters).toNat
        = (cfg.MaxIters - (s.iters + 1)).toNat + 1 := by omega
    rw [runLoop, hf, runLoopF, if_neg h1, if_neg h1]
    by_cases h2 : cancel s.iters.toNat
    · rw [if_pos h2, if_pos h2]
    · rw [if_neg h2, if_neg h2]
      cases hs : sampleAll fexp flog us pos cfg.Params with
      | error e => rfl
      | ok vp => obtain ⟨vals, pos'⟩ := vp; rfl

/-- The classifier accepts exactly the finite outputs lying in the
acceptance interval, when the interval bounds are finite. -/
theorem classifyOk_true_iff {α : Type} [LinearOrderedField α] (y : F64 α)
    (r : Range α) (a b : α) (hmin : r.Min = F64.finite a)
    (hmax : r.Max = F64.finite b) :
    classifyOk y r = true ↔ ∃ q, y = F64.finite q ∧ a ≤ q ∧ q ≤ b := by
  cases y with
  | finite q => simp [classifyOk, isNaN, isInf, inRange, fle, hmin, hmax]
  | nan => simp [classifyOk, isNaN]
  | posInf => simp [classifyOk, isNaN, isInf]
  | negInf => simp [classifyOk, isNaN, isInf]

/-- Claim C1: a trial is classified OK iff the evaluator output is finite
and lies in the closed acceptance interval; NaN and infinite outputs are
classified NG for every interval (main.go lines 52-54 and 161-162). -/
theorem classification_ok_iff_finite_and_in_interval (y : F64 ℚ)
    (r : Range ℚ) (a b : ℚ) (hmin : r.Min = F64.finite a)
    (hmax : r.Max = F64.finite b) :
    (classifyOk y r = true ↔ ∃ q, y = F64.finite q ∧ a ≤ q ∧ q ≤ b) ∧
    (∀ r' : Range ℚ, classifyOk F64.nan r' = false ∧
      classifyOk F64.posInf r' = false ∧ classifyOk F64.negInf r' = false) :=
  ⟨classifyOk_true_iff y r a b hmin hmax, fun _ => ⟨rfl, rfl, rfl⟩⟩

/-- Witness for C1 at the output 1/2 and the interval [0, 1]. -/
theorem classification_ok_iff_finite_and_in_interval_witness :
    (classifyOk (F64.finite (1/2 : ℚ))
        { Min := F64.finite 0, Max := F64.finite 1 } = true ↔
      ∃ q, F64.finite (1/2 : ℚ) = F64.finite q ∧ 0 ≤ q ∧ q ≤ 1) ∧
    (∀ r' : Range ℚ, classifyOk F64.nan r' = false ∧
      classifyOk F64.posInf r' = false ∧ classifyOk F64.negInf r' = false) :=
  classification_ok_iff_finite_and_in_interval (F64.finite (1/2))
    { Min := F64.finite 0, Max := F64.finite 1 } 0 1 rfl rfl

/-- Claim C6: for a Linear parameter with `Max ≥ Min` and a stream draw
`u ∈ [0, 1)`, the sampler returns `Min + u·(Max − Min)`, which lies in
`[Min, Max]` (main.go lines 56-63). -/
theorem linear_sample_formula_and_bounds (fexp flog : ℚ → ℚ) (u : ℚ)
    (p : ParamSpec ℚ) (hsc : p.Scale = Scale.Linear) (hmm : p.Min ≤ p.Max)
    (h0 : 0 ≤ u) (h1 : u < 1) :
    sampleOne fexp flog u p = Except.ok (p.Min + u * (p.Max - p.Min)) ∧
    p.Min ≤ p.Min + u * (p.Max - p.Min) ∧
    p.Min + u * (p.Max - p.Min) ≤ p.Max := by
  refine ⟨?_, ?_, ?_⟩
  · simp only [sampleOne, hsc]
    rw [if_neg (not_lt.mpr hmm)]
  · nlinarith [mul_nonneg h0 (sub_nonneg.mpr hmm)]
  · nlinarith [mul_le_of_le_one_left (sub_nonneg.mpr hmm) h1.le]

/-- Witness for C6 on the parameter `x` over `[0, 1]` at `u = 1/2`. -/
theorem linear_sample_formula_and_bounds_witness :
    sampleOne (id : ℚ → ℚ) id (1/2) pLinW =
      Except.ok (pLinW.Min + (1/2) * (pLinW.Max - pLinW.Min)) ∧
    pLinW.Min ≤ pLinW.Min + (1/2) * (pLinW.Max - pLinW.Min) ∧
    pLinW.Min + (1/2) * (pLinW.Max - pLinW.Min) ≤ pLinW.Max :=
  linear_sample_formula_and_bounds id id (1/2) pLinW rfl
    (by norm_num [pLinW]) (by norm_num) (by norm_num)

/-- Claim C7: for a Log parameter with positive bounds, `Max ≥ Min` and a
stream draw `u ∈ [0, 1)`, the sampler returns
`exp(ln Min + u·(ln Max − ln Min))`, which is positive and whose logarithm
lies in `[ln Min, ln Max]` (main.go lines 56-71). -/
theorem log_sample_formula_and_bounds (u : ℝ) (p : ParamSpec ℝ)
    (hsc : p.Scale = Scale.Log) (hmin : 0 < p.Min) (hmax : 0 < p.Max)
    (hmm : p.Min ≤ p.Max) (h0 : 0 ≤ u) (h1 : u < 1) :
    sampleOne Real.exp Real.log u p =
      Except.ok (Real.exp (Real.log p.Min +
        u * (Real.log p.Max - Real.log p.Min))) ∧
    0 < Real.exp (Real.log p.Min + u * (Real.log p.Max - Real.log p.Min)) ∧
    Real.log p.Min ≤ Real.log (Real.exp (Real.log p.Min +
      u * (Real.log p.Max - Real.log p.Min))) ∧
    Real.log (Real.exp (Real.log p.Min +
      u * (Real.log p.Max - Real.log p.Min))) ≤ Real.log p.Max := by
  have hd : Real.log p.Min ≤ Real.log p.Max := Real.log_le_log hmin hmm
  have hcond : ¬ (p.Min ≤ 0 ∨ p.Max ≤ 0) := by
    push_neg
    exact ⟨hmin, hmax⟩
  refine ⟨?_, Real.exp_pos _, ?_, ?_⟩
  · simp only [sampleOne, hsc]
    rw [if_neg (not_lt.mpr hmm), if_neg hcond]
  · rw [Real.log_exp]
    nlinarith [mul_nonneg h0 (sub_nonneg.mpr hd)]
  · rw [Real.log_exp]
    nlinarith [mul_le_of_le_one_left (sub_nonneg.mpr hd) h1.le]

/-- Witness for C7 on a log parameter over `[1, 2]` at `u = 0`. -/
theorem log_sample_formula_and_bounds_witness :
    sampleOne Real.exp Real.log 0
        { Key := "f", Label := "f", Min := 1, Max := 2,
          Scale := Scale.Log, DisplayScale := 1 } =
      Except.ok (Real.exp (Real.log (1:ℝ) +
        0 * (Real.log (2:ℝ) - Real.log (1:ℝ)))) ∧
    0 < Real.exp (Real.log (1:ℝ) + 0 * (Real.log (2:ℝ) - Real.log (1:ℝ))) ∧
    Real.log (1:ℝ) ≤ Real.log (Real.exp (Real.log (1:ℝ) +
      0 * (Real.log (2:ℝ) - Real.log (1:ℝ)))) ∧
    Real.log (Real.exp (Real.log (1:ℝ) +
      0 * (Real.log (2:ℝ) - Real.log (1:ℝ)))) ≤ Real.log (2:ℝ) :=
  log_sample_formula_and_bounds 0
    { Key := "f", Label := "f", Min := 1, Max := 2,
      Scale := Scale.Log, DisplayScale := 1 }
    rfl (by norm_num) (by norm_num) (by norm_num) (by norm_num) (by norm_num)

/-- Claim C8: the sampler fails exactly when `Max < Min`, or when Log
sampling is requested with a non-positive bound; a degenerate Log domain
`Min = Max > 0` succeeds; and a sampler error makes the loop return
through the fatal path, distinct from Completed and Cancelled (main.go
lines 56-75 and 151-158). -/
theorem domain_error_conditions (fexp flog : ℚ → ℚ) (u : ℚ)
    (p : ParamSpec ℚ) :
    ((∃ e, sampleOne fexp flog u p = Except.error e) ↔
      (p.Max < p.Min ∨ (p.Scale = Scale.Log ∧ (p.Min ≤ 0 ∨ p.Max ≤ 0)))) ∧
    (p.Scale = Scale.Log → 0 < p.Min → p.Min = p.Max →
      sampleOne fexp flog u p =
        Except.ok (fexp (flog p.Min + u * (flog p.Max - flog p.Min)))) ∧
    (∀ (cfg : Config ℚ) (cancel : ℕ → Bool) (us : ℕ → ℚ) (pos : ℕ)
        (s : LoopState ℚ) (e : String),
      ¬ cfg.MaxIters ≤ s.iters → cancel s.iters.toNat = false →
      sampleAll fexp flog us pos cfg.Params = Except.error e →
      runLoop fexp flog cfg cancel us pos s = RunResult.fatal e) := by
  refine ⟨?_, ?_, ?_⟩
  · by_cases hlt : p.Max < p.Min
    · simp [sampleOne, hlt]
    · cases hsc : p.Scale with
      | Linear => simp [sampleOne, hlt, hsc]
      | Log =>
          by_cases hnp : p.Min ≤ 0 ∨ p.Max ≤ 0
          · simp only [sampleOne, if_neg hlt, hsc, if_pos hnp]
            simp [hnp, hlt]
          · simp only [sampleOne, if_neg hlt, hsc, if_neg hnp]
            simp [hnp, hlt]
  · intro hsc h0 heq
    have hle : ¬ p.Max < p.Min := not_lt.mpr (le_of_eq heq)
    have hcond : ¬ (p.Min ≤ 0 ∨ p.Max ≤ 0) := by
      push_neg
      exact ⟨h0, heq ▸ h0⟩
    simp only [sampleOne, hsc]
    rw [if_neg hle, if_neg hcond]
  · intro cfg cancel us pos s e h1 h2 hs
    rw [runLoop_eq, if_neg h1, if_neg (by simp [h2]), hs]

/-- Witness for C8: an error for a Log parameter with `Min = 0`, success
for the degenerate Log parameter `Min = Max = 1`, and a fatal run on a
configuration whose first trial hits the sampler error. -/
theorem domain_error_conditions_witness :
    (∃ e, sampleOne (id : ℚ → ℚ) id 0 pLogBad = Except.error e) ∧
    sampleOne (id : ℚ → ℚ) id 0 pLogW =
      Except.ok (id (id pLogW.Min + 0 * (id pLogW.Max - id pLogW.Min))) ∧
    runLoop (id : ℚ → ℚ) id cfgBadW noCancel usZero 0 initState =
      RunResult.fatal "param b: log sampling requires Min>0 and Max>0" :=
  ⟨(domain_error_conditions id id 0 pLogBad).1.mpr
      (Or.inr ⟨rfl, Or.inl (by norm_num [pLogBad])⟩),
    (domain_error_conditions id id 0 pLogW).2.1 rfl
      (by norm_num [pLogW]) (by norm_num [pLogW]),
    (domain_error_conditions id id 0 pLogBad).2.2 cfgBadW noCancel usZero 0
      initState "param b: log sampling requires Min>0 and Max>0"
      (by decide) rfl (by with_unfolding_all rfl)⟩


/-- Any property of the run state that is preserved by recording one trial
holds of the state exposed by a Completed or Cancelled loop exit. -/
theorem runLoopF_preserves {α : Type} [LinearOrderedField α]
    (fexp flog : α → α) (cfg : Config α) (cancel : ℕ → Bool) (us : ℕ → α)
    (P : LoopState α → Prop)
    (hstep : ∀ (s : LoopState α) (vals : List (String × α)), P s →
      P (recordTrial cfg s vals (cfg.F vals)
          (classifyOk (cfg.F vals) cfg.YRange))) :
    ∀ (fuel pos : ℕ) (s s' : LoopState α), P s →
      (runLoopF fexp flog cfg cancel us fuel pos s = RunResult.completed s' ∨
       runLoopF fexp flog cfg cancel us fuel pos s = RunResult.cancelled s') →
      P s' := by
  intro fuel
  induction fuel with
  | zero =>
      intro pos s s' hP hrun
      rcases hrun with h | h <;>
        · rw [runLoopF] at h
          split_ifs at h <;> cases h <;> exact hP
  | succ fuel ih =>
      intro pos s s' hP hrun
      rw [runLoopF] at hrun
      by_cases h1 : cfg.MaxIters ≤ s.iters
      · rw [if_pos h1] at hrun
        rcases hrun with h | h
        · cases h
          exact hP
        · cases h
      · rw [if_neg h1] at hrun
        by_cases h2 : cancel s.iters.toNat = true
        · rw [if_pos h2] at hrun
          rcases hrun with h | h
          · cases h
          · cases h
            exact hP
        · rw [if_neg h2] at hrun
          cases hs : sampleAll fexp flog us pos cfg.Params with
          | error e =>
              rw [hs] at hrun
              rcases hrun with h | h <;> cases h
          | ok vp =>
              obtain ⟨vals, pos'⟩ := vp
              rw [hs] at hrun
              exact ih pos' _ s' (hstep s vals hP) hrun

/-- The OK hit counter update of one recorded trial. -/
theorem recordTrial_okHits {α : Type} (cfg : Config α) (s : LoopState α)
    (vals : List (String × α)) (y : F64 α) (ok : Bool) :
    (recordTrial cfg s vals y ok).okHits =
      if ok then s.okHits + 1 else s.okHits := rfl

/-- The NG hit counter update of one recorded trial. -/
theorem recordTrial_ngHits {α : Type} (cfg : Config α) (s : LoopState α)
    (vals : List (String × α)) (y : F64 α) (ok : Bool) :
    (recordTrial cfg s vals y ok).ngHits =
      if ok then s.ngHits else s.ngHits + 1 := rfl

/-- The OK list update of one recorded trial. -/
theorem recordTrial_okList {α : Type} (cfg : Config α) (s : LoopState α)
    (vals : List (String × α)) (y : F64 α) (ok : Bool) :
    (recordTrial cfg s vals y ok).okList =
      if ok then
        if 0 < cfg.MaxOKSave ∧ (s.okList.length : ℤ) < cfg.MaxOKSave then
          s.okList ++ [{ Values := vals, Y := y, OK := ok }]
        else s.okList
      else s.okList := rfl

/-- The NG list update of one recorded trial. -/
theorem recordTrial_ngList {α : Type} (cfg : Config α) (s : LoopState α)
    (vals : List (String × α)) (y : F64 α) (ok : Bool) :
    (recordTrial cfg s vals y ok).ngList =
      if ok then s.ngList
      else
        if 0 < cfg.MaxNGSave ∧ (s.ngList.length : ℤ) < cfg.MaxNGSave then
          s.ngList ++ [{ Values := vals, Y := y, OK := ok }]
        else s.ngList := rfl

/-- Recording a trial preserves the counter/capacity invariant. -/
theorem counterInv_step {α : Type} (cfg : Config α) (s : LoopState α)
    (vals : List (String × α)) (y : F64 α) (ok : Bool)
    (h : CounterInv cfg s) : CounterInv cfg (recordTrial cfg s vals y ok) := by
  obtain ⟨h1, h2, h3⟩ := h
  have hlen : ∀ (l : List (Sample α)) (x : Sample α),
      (((l ++ [x]).length : ℕ) : ℤ) = (l.length : ℤ) + 1 := by
    intro l x
    simp
  simp only [le_min_iff] at h2 h3
  refine ⟨?_, ?_, ?_⟩
  · rw [recordTrial_iters, recordTrial_okHits, recordTrial_ngHits]
    cases ok <;> simp <;> omega
  · rw [recordTrial_okHits, recordTrial_okList, le_min_iff]
    split_ifs with hok hc
    · rw [hlen]
      omega
    · omega
    · omega
  · rw [recordTrial_ngHits, recordTrial_ngList, le_min_iff]
    split_ifs with hok hc
    · omega
    · rw [hlen]
      omega
    · omega

/-- A sample in the OK list after a recorded trial was already there, or is
the newly recorded OK sample. -/
theorem recordTrial_mem_okList {α : Type} (cfg : Config α) (s : LoopState α)
    (vals : List (String × α)) (y : F64 α) (ok : Bool) (sm : Sample α)
    (h : sm ∈ (recordTrial cfg s vals y ok).okList) :
    sm ∈ s.okList ∨ (sm = { Values := vals, Y := y, OK := ok } ∧ ok = true) := by
  simp only [recordTrial] at h
  split_ifs at h with h1 h2
  · rcases List.mem_append.mp h with h' | h'
    · exact Or.inl h'
    · exact Or.inr ⟨List.mem_singleton.mp h', h1⟩
  · exact Or.inl h
  · exact Or.inl h

/-- A sample in the NG list after a recorded trial was already there, or is
the newly recorded NG sample. -/
theorem recordTrial_mem_ngList {α : Type} (cfg : Config α) (s : LoopState α)
    (vals : List (String × α)) (y : F64 α) (ok : Bool) (sm : Sample α)
    (h : sm ∈ (recordTrial cfg s vals y ok).ngList) :
    sm ∈ s.ngList ∨ (sm = { Values := vals, Y := y, OK := ok } ∧ ok = false) := by
  simp only [recordTrial] at h
  split_ifs at h with h1 h2
  · exact Or.inl h
  · rcases List.mem_append.mp h with h' | h'
    · exact Or.inl h'
    · exact Or.inr ⟨List.mem_singleton.mp h', by simp [h1]⟩
  · exact Or.inl h

/-- Recording a trial whose stored flag is the classifier result preserves
the purity invariant of the retention lists. -/
theorem listsInv_step {α : Type} [LinearOrderedField α] (cfg : Config α)
    (s : LoopState α) (vals : List (String × α)) (y : F64 α) (ok : Bool)
    (hokc : ok = classifyOk y cfg.YRange) (h : ListsInv cfg s) :
    ListsInv cfg (recordTrial cfg s vals y ok) := by
  obtain ⟨h1, h2⟩ := h
  constructor
  · intro sm hsm
    rcases recordTrial_mem_okList cfg s vals y ok sm hsm with h' | ⟨hsm', hc⟩
    · exact h1 sm h'
    · subst hsm'
      exact ⟨hc, hokc.symm.trans hc⟩
  · intro sm hsm
    rcases recordTrial_mem_ngList cfg s vals y ok sm hsm with h' | ⟨hsm', hc⟩
    · exact h2 sm h'
    · subst hsm'
      exact ⟨hc, hokc.symm.trans hc⟩

/-- The sampler loop consumes exactly one stream element per parameter, in
configured order: on success the cursor advances by the number of
parameters and the `j`-th assignment entry pairs the `j`-th parameter key
with the value sampled from stream element `pos + j`. -/
theorem sampleAll_spec {α : Type} [LinearOrderedField α] (fexp flog : α → α)
    (us : ℕ → α) :
    ∀ (params : List (ParamSpec α)) (pos : ℕ)
      (vals : List (String × α)) (pos' : ℕ),
      sampleAll fexp flog us pos params = Except.ok (vals, pos') →
      pos' = pos + params.length ∧ vals.length = params.length ∧
      ∀ (j : ℕ) (p : ParamSpec α), params.get? j = some p →
        ∃ v, vals.get? j = some (p.Key, v) ∧
          sampleOne fexp flog (us (pos + j)) p = Except.ok v := by
  intro params
  induction params with
  | nil =>
      intro pos vals pos' h
      simp only [sampleAll] at h
      cases h
      refine ⟨by simp, by simp, ?_⟩
      intro j p hp
      simp at hp
  | cons p ps ih =>
      intro pos vals pos' h
      simp only [sampleAll] at h
      cases h1 : sampleOne fexp flog (us pos) p with
      | error e => rw [h1] at h; simp at h
      | ok v =>
          rw [h1] at h
          cases h2 : sampleAll fexp flog us (pos + 1) ps with
          | error e => rw [h2] at h; simp at h
          | ok vp =>
              obtain ⟨rest, posr⟩ := vp
              rw [h2] at h
              cases h
              obtain ⟨ha, hb, hc⟩ := ih (pos + 1) rest pos' h2
              refine ⟨by simp [ha]; omega, by simp [hb], ?_⟩
              intro j q hq
              cases j with
              | zero =>
                  simp only [List.get?] at hq
                  cases hq
                  exact ⟨v, by simp, by simpa using h1⟩
              | succ j =>
                  simp only [List.get?] at hq ⊢
                  obtain ⟨w, hw1, hw2⟩ := hc j q hq
                  refine ⟨w, hw1, ?_⟩
                  have hj : pos + (j + 1) = pos + 1 + j := by omega
                  rw [hj]
                  exact hw2

/-- If the parameter list has an empty key, a duplicated key, or a key
already in the `seen` accumulator, the pre-loop key scan reports an
error. -/
theorem findKeyError_isSome {α : Type} :
    ∀ (params : List (ParamSpec α)) (seen : List String),
      ("" ∈ keysOf params ∨ ¬ (keysOf params).Nodup ∨
        ∃ k ∈ keysOf params, k ∈ seen) →
      ∃ e, findKeyError seen params = some e := by
  intro params
  induction params with
  | nil =>
      intro seen h
      simp [keysOf] at h
  | cons p ps ih =>
      intro seen h
      by_cases he : p.Key = ""
      · exact ⟨"param key is empty", by simp [findKeyError, he]⟩
      · by_cases hd : p.Key ∈ seen
        · exact ⟨"duplicate param key: " ++ p.Key,
            by simp [findKeyError, he, hd]⟩
        · rw [findKeyError, if_neg he, if_neg hd]
          apply ih (p.Key :: seen)
          rcases h with h | h | h
          · simp only [keysOf, List.map_cons, List.mem_cons] at h
            rcases h with h | h
            · exact absurd h.symm he
            · exact Or.inl h
          · simp only [keysOf, List.map_cons, List.nodup_cons] at h
            rcases not_and_or.mp h with h | h
            · exact Or.inr (Or.inr ⟨p.Key, not_not.mp h, List.mem_cons_self _ _⟩)
            · exact Or.inr (Or.inl h)
          · obtain ⟨k, hk1, hk2⟩ := h
            simp only [keysOf, List.map_cons, List.mem_cons] at hk1
            rcases hk1 with hk1 | hk1
            · exact absurd (hk1 ▸ hk2) hd
            · exact Or.inr (Or.inr ⟨k, hk1, List.mem_cons_of_mem _ hk2⟩)

/-- Claim C2: the trial counter always equals the sum of the OK and NG hit
counters, and each retention list is bounded by both its hit counter and
its configured capacity — at the initial state, across every recorded
trial, and in the state exposed by a finished run (main.go lines
164-186). -/
theorem counters_invariant (fexp flog : ℚ → ℚ) (cfg : Config ℚ)
    (cancel : ℕ → Bool) (us : ℕ → ℚ)
    (hok : 0 ≤ cfg.MaxOKSave) (hng : 0 ≤ cfg.MaxNGSave) :
    CounterInv cfg initState ∧
    (∀ (s : LoopState ℚ) (vals : List (String × ℚ)) (y : F64 ℚ) (ok : Bool),
      CounterInv cfg s → CounterInv cfg (recordTrial cfg s vals y ok)) ∧
    (∀ s' : LoopState ℚ,
      (mainRun fexp flog cfg cancel us =
        MainResult.finished (RunResult.completed s') ∨
       mainRun fexp flog cfg cancel us =
        MainResult.finished (RunResult.cancelled s')) → CounterInv cfg s') := by
  have hinit : CounterInv cfg initState := by
    refine ⟨by norm_num [initState], ?_, ?_⟩ <;>
      · simp [initState, le_min_iff]
        omega
  refine ⟨hinit, fun s vals y ok h => counterInv_step cfg s vals y ok h, ?_⟩
  intro s' h
  cases hk : findKeyError (α := ℚ) [] cfg.Params with
  | some e =>
      rw [mainRun, hk] at h
      rcases h with h | h <;> cases h
  | none =>
      rw [mainRun, hk] at h
      have h' : runLoop fexp flog cfg cancel us 0 initState =
            RunResult.completed s' ∨
          runLoop fexp flog cfg cancel us 0 initState =
            RunResult.cancelled s' := by
        rcases h with h | h <;> [exact Or.inl (by injection h);
          exact Or.inr (by injection h)]
      exact runLoopF_preserves fexp flog cfg cancel us (CounterInv cfg)
        (fun s vals hP => counterInv_step cfg s vals (cfg.F vals)
          (classifyOk (cfg.F vals) cfg.YRange) hP)
        (cfg.MaxIters - initState.iters).toNat 0 initState s' hinit h'

/-- Witness for C2: the invariant holds of the final state of a concrete
two-trial run. -/
theorem counters_invariant_witness :
    CounterInv cfgW sFinW :=
  (counters_invariant id id cfgW noCancel usZero (by decide) (by decide)).2.2
    sFinW (Or.inl (by with_unfolding_all rfl))


/-- Claim C3: once a retention list has reached its configured capacity, a
further trial of that class still increments the hit counter and the trial
counter but leaves the list unchanged; and the loop keeps sampling,
classifying and recording regardless of list fullness (main.go lines
164-186). -/
theorem capacity_reached_frame (cfg : Config ℚ) (s : LoopState ℚ)
    (vals : List (String × ℚ)) (y : F64 ℚ) :
    ((s.okList.length : ℤ) = cfg.MaxOKSave →
      (recordTrial cfg s vals y true).okHits = s.okHits + 1 ∧
      (recordTrial cfg s vals y true).okList = s.okList ∧
      (recordTrial cfg s vals y true).iters = s.iters + 1) ∧
    ((s.ngList.length : ℤ) = cfg.MaxNGSave →
      (recordTrial cfg s vals y false).ngHits = s.ngHits + 1 ∧
      (recordTrial cfg s vals y false).ngList = s.ngList ∧
      (recordTrial cfg s vals y false).iters = s.iters + 1) ∧
    (∀ (fexp flog : ℚ → ℚ) (cancel : ℕ → Bool) (us : ℕ → ℚ) (pos : ℕ)
        (vals' : List (String × ℚ)) (pos' : ℕ),
      ¬ cfg.MaxIters ≤ s.iters → cancel s.iters.toNat = false →
      sampleAll fexp flog us pos cfg.Params = Except.ok (vals', pos') →
      runLoop fexp flog cfg cancel us pos s =
        runLoop fexp flog cfg cancel us pos'
          (recordTrial cfg s vals' (cfg.F vals')
            (classifyOk (cfg.F vals') cfg.YRange))) := by
  refine ⟨?_, ?_, ?_⟩
  · intro h
    have hcond : ¬ (0 < cfg.MaxOKSave ∧ (s.okList.length : ℤ) < cfg.MaxOKSave) := by
      omega
    refine ⟨by rw [recordTrial_okHits, if_pos rfl], ?_,
      recordTrial_iters cfg s vals y true⟩
    rw [recordTrial_okList, if_pos rfl, if_neg hcond]
  · intro h
    have hcond : ¬ (0 < cfg.MaxNGSave ∧ (s.ngList.length : ℤ) < cfg.MaxNGSave) := by
      omega
    refine ⟨by rw [recordTrial_ngHits, if_neg (by simp)], ?_,
      recordTrial_iters cfg s vals y false⟩
    rw [recordTrial_ngList, if_neg (by simp), if_neg hcond]
  · intro fexp flog cancel us pos vals' pos' h1 h2 hs
    rw [runLoop_eq, if_neg h1, if_neg (by simp [h2]), hs]

/-- Witness for C3: a full OK list of capacity one, a full NG list of
capacity one, and one live loop step on a concrete configuration. -/
theorem capacity_reached_frame_witness :
    ((recordTrial cfgW sOneOkW [("x", 1)] (F64.finite 1) true).okHits = 1 + 1 ∧
      (recordTrial cfgW sOneOkW [("x", 1)] (F64.finite 1) true).okList =
        sOneOkW.okList ∧
      (recordTrial cfgW sOneOkW [("x", 1)] (F64.finite 1) true).iters = 1 + 1) ∧
    ((recordTrial cfgW sOneNgW [("x", 4)] (F64.finite 4) false).ngHits = 1 + 1 ∧
      (recordTrial cfgW sOneNgW [("x", 4)] (F64.finite 4) false).ngList =
        sOneNgW.ngList ∧
      (recordTrial cfgW sOneNgW [("x", 4)] (F64.finite 4) false).iters = 1 + 1) ∧
    runLoop (id : ℚ → ℚ) id cfgW noCancel usZero 1 sOneOkW =
      runLoop (id : ℚ → ℚ) id cfgW noCancel usZero 2
        (recordTrial cfgW sOneOkW [("x", 0)] (cfgW.F [("x", 0)])
          (classifyOk (cfgW.F [("x", 0)]) cfgW.YRange)) :=
  ⟨(capacity_reached_frame cfgW sOneOkW [("x", 1)] (F64.finite 1)).1
      (by decide),
    (capacity_reached_frame cfgW sOneNgW [("x", 4)] (F64.finite 4)).2.1
      (by decide),
    (capacity_reached_frame cfgW sOneOkW [("x", 0)] (F64.finite 0)).2.2
      id id noCancel usZero 1 [("x", 0)] 2 (by decide) rfl
      (by with_unfolding_all rfl)⟩

/-- Claim C4: each step first checks the iteration bound (Completed takes
precedence) and then the cancellation signal (Cancelled); both exits stop
the loop immediately and expose exactly the accumulated state, in the same
shape (main.go lines 140-149 and 188-199). -/
theorem termination_check_order (fexp flog : ℚ → ℚ) (cfg : Config ℚ)
    (cancel : ℕ → Bool) (us : ℕ → ℚ) (pos : ℕ) (s : LoopState ℚ) :
    (cfg.MaxIters ≤ s.iters →
      runLoop fexp flog cfg cancel us pos s = RunResult.completed s) ∧
    (¬ cfg.MaxIters ≤ s.iters → cancel s.iters.toNat = true →
      runLoop fexp flog cfg cancel us pos s = RunResult.cancelled s) := by
  constructor
  · intro h1
    rw [runLoop_eq, if_pos h1]
  · intro h1 h2
    rw [runLoop_eq, if_neg h1, if_pos h2]

/-- Witness for C4: a bound-reached state completes and a cancelled state
cancels, each exposing its accumulated state unchanged. -/
theorem termination_check_order_witness :
    runLoop (id : ℚ → ℚ) id cfgW noCancel usZero 4 sFinW =
      RunResult.completed sFinW ∧
    runLoop (id : ℚ → ℚ) id cfgW (fun _ => true) usZero 2 sOneOkW =
      RunResult.cancelled sOneOkW :=
  ⟨(termination_check_order id id cfgW noCancel usZero 4 sFinW).1 (by decide),
    (termination_check_order id id cfgW (fun _ => true) usZero 2 sOneOkW).2
      (by decide) rfl⟩

/-- Claim C5: a run is a deterministic function of the seed-derived random
stream, the configuration (parameter specs in order, interval, bounds,
evaluator) and the cancellation schedule; and sampling consumes the single
stream in a fixed order — one element per parameter, in configured order,
trial after trial (main.go lines 115 and 151-159). -/
theorem deterministic_replay (fexp flog : ℚ → ℚ) (cfg₁ cfg₂ : Config ℚ)
    (cancel₁ cancel₂ : ℕ → Bool) (us₁ us₂ : ℕ → ℚ)
    (hcfg : cfg₁ = cfg₂) (hcan : cancel₁ = cancel₂) (hus : us₁ = us₂) :
    mainRun fexp flog cfg₁ cancel₁ us₁ = mainRun fexp flog cfg₂ cancel₂ us₂ ∧
    (∀ (pos : ℕ) (vals : List (String × ℚ)) (pos' : ℕ),
      sampleAll fexp flog us₁ pos cfg₁.Params = Except.ok (vals, pos') →
      pos' = pos + cfg₁.Params.length ∧ vals.length = cfg₁.Params.length ∧
      ∀ (j : ℕ) (p : ParamSpec ℚ), cfg₁.Params.get? j = some p →
        ∃ v, vals.get? j = some (p.Key, v) ∧
          sampleOne fexp flog (us₁ (pos + j)) p = Except.ok v) := by
  subst hcfg
  subst hcan
  subst hus
  exact ⟨rfl, fun pos vals pos' h =>
    sampleAll_spec fexp flog us₁ cfg₁.Params pos vals pos' h⟩

/-- Witness for C5: replaying the concrete two-trial run reproduces it,
and its first trial consumes exactly stream element 0 for the single
parameter. -/
theorem deterministic_replay_witness :
    mainRun (id : ℚ → ℚ) id cfgW noCancel usZero =
      mainRun (id : ℚ → ℚ) id cfgW noCancel usZero ∧
    ((1 : ℕ) = 0 + cfgW.Params.length ∧
      ([(("x" : String), (0 : ℚ))]).length = cfgW.Params.length ∧
      ∀ (j : ℕ) (p : ParamSpec ℚ), cfgW.Params.get? j = some p →
        ∃ v, [(("x" : String), (0 : ℚ))].get? j = some (p.Key, v) ∧
          sampleOne (id : ℚ → ℚ) id (usZero (0 + j)) p = Except.ok v) :=
  ⟨(deterministic_replay id id cfgW cfgW noCancel noCancel usZero usZero
      rfl rfl rfl).1,
    (deterministic_replay id id cfgW cfgW noCancel noCancel usZero usZero
      rfl rfl rfl).2 0 [("x", 0)] 1 (by with_unfolding_all rfl)⟩

/-- Claim C9: an empty or duplicated parameter key is caught by the scan
that runs before the trial loop: the run panics, so no loop exit (and in
particular no result set) is ever produced (main.go lines 90-102). -/
theorem key_check_aborts_before_loop (fexp flog : ℚ → ℚ) (cfg : Config ℚ)
    (cancel : ℕ → Bool) (us : ℕ → ℚ)
    (hbad : "" ∈ keysOf cfg.Params ∨ ¬ (keysOf cfg.Params).Nodup) :
    (∃ e, mainRun fexp flog cfg cancel us = MainResult.panicked e) ∧
    ∀ r : RunResult ℚ, mainRun fexp flog cfg cancel us ≠ MainResult.finished r := by
  obtain ⟨e, he⟩ := findKeyError_isSome cfg.Params []
    (by rcases hbad with h | h
        · exact Or.inl h
        · exact Or.inr (Or.inl h))
  refine ⟨⟨e, by rw [mainRun, he]⟩, ?_⟩
  intro r hr
  rw [mainRun, he] at hr
  cases hr

/-- Witness for C9 on the configuration with a duplicated key `x`. -/
theorem key_check_aborts_before_loop_witness :
    (∃ e, mainRun (id : ℚ → ℚ) id cfgDupW noCancel usZero =
      MainResult.panicked e) ∧
    ∀ r : RunResult ℚ, mainRun (id : ℚ → ℚ) id cfgDupW noCancel usZero ≠
      MainResult.finished r :=
  key_check_aborts_before_loop id id cfgDupW noCancel usZero (by decide)

/-- Claim C10: in the state exposed by a finished run with finite interval
bounds, every retained OK sample is classified OK with a finite output
inside the acceptance interval, and every retained NG sample is classified
NG (main.go lines 41-45 and 161-180). -/
theorem retained_lists_pure (fexp flog : ℚ → ℚ) (cfg : Config ℚ)
    (cancel : ℕ → Bool) (us : ℕ → ℚ) (a b : ℚ)
    (hmin : cfg.YRange.Min = F64.finite a)
    (hmax : cfg.YRange.Max = F64.finite b) (s' : LoopState ℚ)
    (h : mainRun fexp flog cfg cancel us =
        MainResult.finished (RunResult.completed s') ∨
      mainRun fexp flog cfg cancel us =
        MainResult.finished (RunResult.cancelled s')) :
    (∀ sm ∈ s'.okList, sm.OK = true ∧
      ∃ q, sm.Y = F64.finite q ∧ a ≤ q ∧ q ≤ b) ∧
    (∀ sm ∈ s'.ngList, sm.OK = false ∧
      classifyOk sm.Y cfg.YRange = false) := by
  have hinv : ListsInv cfg s' := by
    cases hk : findKeyError (α := ℚ) [] cfg.Params with
    | some e =>
        rw [mainRun, hk] at h
        rcases h with h | h <;> cases h
    | none =>
        rw [mainRun, hk] at h
        have h' : runLoop fexp flog cfg cancel us 0 initState =
              RunResult.completed s' ∨
            runLoop fexp flog cfg cancel us 0 initState =
              RunResult.cancelled s' := by
          rcases h with h | h
          · exact Or.inl (by injection h)
          · exact Or.inr (by injection h)
        exact runLoopF_preserves fexp flog cfg cancel us (ListsInv cfg)
          (fun s vals hP => listsInv_step cfg s vals (cfg.F vals)
            (classifyOk (cfg.F vals) cfg.YRange) rfl hP)
          (cfg.MaxIters - initState.iters).toNat 0 initState s'
          ⟨fun sm hsm => absurd hsm (List.not_mem_nil sm),
            fun sm hsm => absurd hsm (List.not_mem_nil sm)⟩ h'
  obtain ⟨hok, hng⟩ := hinv
  refine ⟨?_, hng⟩
  intro sm hsm
  obtain ⟨h1, h2⟩ := hok sm hsm
  exact ⟨h1, (classifyOk_true_iff sm.Y cfg.YRange a b hmin hmax).mp h2⟩

/-- Witness for C10 on the final state of the concrete two-trial run. -/
theorem retained_lists_pure_witness :
    (∀ sm ∈ sFinW.okList, sm.OK = true ∧
      ∃ q, sm.Y = F64.finite q ∧ 0 ≤ q ∧ q ≤ 1) ∧
    (∀ sm ∈ sFinW.ngList, sm.OK = false ∧
      classifyOk sm.Y cfgW.YRange = false) :=
  retained_lists_pure id id cfgW noCancel usZero 0 1 rfl rfl sFinW
    (Or.inl (by with_unfolding_all rfl))

end WptSearch
